import Mathlib

/-!
# Verification of the omnihash core (`omnihash/omnihash.py`)

A shallow embedding of the digest-factory registry and the single-pass
multi-algorithm hashing engine, together with proofs of the specified
properties.

Modelling conventions:
* bytes are `Nat` values (< 256 on all inputs considered), byte strings are
  `List Nat`, chunk sequences are `List (List Nat)`;
* Python `str` is Lean `String`; the substring test `a in b` is `strIn`;
* a Python "digester" object is a `Digester`: a state type together with its
  `update` and `hexdigest` operations; mutation is explicit state passing;
* `hashlib.sha1` is modelled by a real SHA-1 implementation over `Nat`
  (`sha1hex`), with the absorbed byte list as the digester state;
* the `match` CLI value (Python `False` or a string) is `Option String`,
  with Python truthiness given by `pyTruthy`;
* printing (`echo`, `click.echo`) is ignored except for the "No matches
  found!" signal, which is captured as the boolean `no_match_msg`.
-/

/-! ## SHA-1 over byte lists (model of `hashlib.sha1`) -/

/-- The 32-bit modulus. -/
def w32 : Nat := 4294967296

/-- Rotate a 32-bit word left by `n` bits. -/
def rotl (n x : Nat) : Nat :=
  ((x <<< n) % w32) ||| (x >>> (32 - n))

/-- Big-endian byte rendering of `v`, `n` bytes wide. -/
def beBytes (n v : Nat) : List Nat :=
  (List.range n).map (fun i => (v >>> (8 * (n - 1 - i))) % 256)

/-- SHA-1 padding: `0x80`, zero bytes up to 56 mod 64, then the 8-byte
big-endian bit length. -/
def sha1Pad (msg : List Nat) : List Nat :=
  let len := msg.length
  let z := (120 - ((len + 1) % 64)) % 64
  msg ++ [128] ++ List.replicate z 0 ++ beBytes 8 (len * 8)

/-- Group bytes into big-endian 32-bit words. -/
def toWords : List Nat → List Nat
  | a :: b :: c :: d :: rest =>
      ((a <<< 24) ||| (b <<< 16) ||| (c <<< 8) ||| d) :: toWords rest
  | _ => []

/-- Split a list into 64-byte blocks; the fuel argument keeps the recursion
structural so that the kernel can reduce it. -/
def blocks64Aux : Nat → List Nat → List (List Nat)
  | 0, _ => []
  | _ + 1, [] => []
  | fuel + 1, l => l.take 64 :: blocks64Aux fuel (l.drop 64)

/-- Split a list into 64-byte blocks. -/
def blocks64 (l : List Nat) : List (List Nat) := blocks64Aux l.length l

/-- Extend the 16 message words of a block to the 80-word schedule. -/
def sha1Schedule (w16 : List Nat) : List Nat :=
  (List.range 64).foldl
    (fun ws _ =>
      let n := ws.length
      ws ++ [rotl 1 (((ws.getD (n - 3) 0) ^^^ (ws.getD (n - 8) 0)) ^^^
                     ((ws.getD (n - 14) 0) ^^^ (ws.getD (n - 16) 0)))])
    w16

/-- One SHA-1 round on the five working words. -/
def sha1Round (st : Nat × Nat × Nat × Nat × Nat) (iw : Nat × Nat) :
    Nat × Nat × Nat × Nat × Nat :=
  let a := st.1; let b := st.2.1; let c := st.2.2.1
  let d := st.2.2.2.1; let e := st.2.2.2.2
  let i := iw.1; let w := iw.2
  let f :=
    if i < 20 then (b &&& c) ||| ((4294967295 ^^^ b) &&& d)
    else if i < 40 then (b ^^^ c) ^^^ d
    else if i < 60 then ((b &&& c) ||| (b &&& d)) ||| (c &&& d)
    else (b ^^^ c) ^^^ d
  let k :=
    if i < 20 then 1518500249
    else if i < 40 then 1859775393
    else if i < 60 then 2400959708
    else 3395469782
  let temp := (rotl 5 a + f + e + k + w) % w32
  (temp, a, rotl 30 b, c, d)

/-- Process one 64-byte block, updating the five chaining words. -/
def sha1Block (h : Nat × Nat × Nat × Nat × Nat) (block : List Nat) :
    Nat × Nat × Nat × Nat × Nat :=
  let ws := sha1Schedule (toWords block)
  let st := ((List.range 80).zip ws).foldl sha1Round h
  ((h.1 + st.1) % w32, (h.2.1 + st.2.1) % w32, (h.2.2.1 + st.2.2.1) % w32,
   (h.2.2.2.1 + st.2.2.2.1) % w32, (h.2.2.2.2 + st.2.2.2.2) % w32)

/-- Lower-case hexadecimal digit. -/
def hexDigit (n : Nat) : Char :=
  if n < 10 then Char.ofNat (48 + n) else Char.ofNat (87 + n)

/-- Eight-hex-digit rendering of a 32-bit word. -/
def hex8 (v : Nat) : String :=
  String.mk ((List.range 8).map (fun i => hexDigit ((v >>> (4 * (7 - i))) % 16)))

/-- SHA-1 of a byte list, as a lower-case hex string. -/
def sha1hex (msg : List Nat) : String :=
  let h := (blocks64 (sha1Pad msg)).foldl sha1Block
    (1732584193, 4023233417, 2562383102, 271733878, 3285377520)
  hex8 h.1 ++ hex8 h.2.1 ++ hex8 h.2.2.1 ++ hex8 h.2.2.2.1 ++ hex8 h.2.2.2.2

/-! ## Python-side primitives -/

/-- Bytes of an ASCII string (model of `str.encode()` on the ASCII strings
used by the program). -/
def strBytes (s : String) : List Nat := s.data.map Char.toNat

/-- Python's substring test `needle in hay` on strings: the needle's
characters occur contiguously in the hay's characters. -/
def strIn (needle hay : String) : Bool :=
  hay.data.tails.any (fun t => needle.data.isPrefixOf t)

/-- Python's `str.isupper()` on ASCII strings: at least one cased character
and no lower-case character. -/
def pyIsUpper (s : String) : Bool :=
  s.data.any Char.isUpper && !(s.data.any Char.isLower)

/-- Python truthiness of the `match` argument, which is either `False`
(modelled `none`) or a string (truthy iff non-empty). -/
def pyTruthy : Option String → Bool
  | none => false
  | some s => !(s == "")

/-! ## Digest accumulators -/

/-- A digester object: some state together with its `update` and
`hexdigest` methods.  Python mutation becomes explicit state passing. -/
structure Digester : Type 1 where
  S : Type
  st : S
  updFn : S → List Nat → S
  hexFn : S → String

/-- `digester.update(b)`. -/
def Digester.update (d : Digester) (b : List Nat) : Digester :=
  ⟨d.S, d.updFn d.st b, d.updFn, d.hexFn⟩

/-- `digester.hexdigest()`. -/
def Digester.hexdigest (d : Digester) : String := d.hexFn d.st

/-- State of a `hashlib.sha1` object: the byte sequence absorbed so far
(feeding SHA-1 incrementally hashes exactly the concatenation). -/
structure Sha1 where
  absorbed : List Nat

/-- `hashlib.sha1(data)`. -/
def sha1 (data : List Nat) : Sha1 := ⟨data⟩

/-- `sha1_object.update(b)`. -/
def Sha1.update (s : Sha1) (b : List Nat) : Sha1 := ⟨s.absorbed ++ b⟩

/-- `sha1_object.hexdigest()`. -/
def Sha1.hexdigest (s : Sha1) : String := sha1hex s.absorbed

/-- `git_header(otype, fsize)`: `("%s %i\0" % (otype, fsize)).encode()`. -/
def git_header (otype : String) (fsize : Nat) : List Nat :=
  strBytes (otype ++ " " ++ toString fsize ++ String.singleton (Char.ofNat 0))

/-- `GitSlurpDigester`: buffers all bytes, hashing header plus buffer at
the end (git-style hashing when the size is not known a priori). -/
structure GitSlurpDigester where
  otype : String
  fbytes : List Nat

/-- `GitSlurpDigester(otype)` (the class attribute starts `fbytes` empty). -/
def GitSlurpDigester.init (otype : String) : GitSlurpDigester := ⟨otype, []⟩

/-- `GitSlurpDigester.update`: `self.fbytes += fbytes`. -/
def GitSlurpDigester.update (d : GitSlurpDigester) (fbytes : List Nat) :
    GitSlurpDigester :=
  ⟨d.otype, d.fbytes ++ fbytes⟩

/-- `GitSlurpDigester.hexdigest`: SHA-1 of the git header for the buffered
length followed by the buffered bytes. -/
def GitSlurpDigester.hexdigest (d : GitSlurpDigester) : String :=
  sha1hex (git_header d.otype d.fbytes.length ++ d.fbytes)

/-- `git_factory(otype, fsize)`: slurping digester when `fsize` is `None`,
else a SHA-1 digester seeded with the git header. -/
def git_factory (otype : String) (fsize : Option Nat) : Digester :=
  match fsize with
  | none =>
      ⟨GitSlurpDigester, GitSlurpDigester.init otype,
       GitSlurpDigester.update, GitSlurpDigester.hexdigest⟩
  | some n => ⟨Sha1, sha1 (git_header otype n), Sha1.update, Sha1.hexdigest⟩

/-- `LenDigester` state: the signed counter (`fsize` is stored negated when
the length was declared up front). -/
structure LenDigester where
  fsize : Int

/-- `LenDigester(fsize)`: the class attribute is `0`; a declared length is
stored negated. -/
def LenDigester.init (fsize : Option Nat) : LenDigester :=
  match fsize with
  | none => ⟨0⟩
  | some n => ⟨-(n : Int)⟩

/-- `LenDigester.update`: adds `len(b)` while the counter is non-negative. -/
def LenDigester.update (d : LenDigester) (b : List Nat) : LenDigester :=
  if 0 ≤ d.fsize then ⟨d.fsize + b.length⟩ else d

/-- `LenDigester.hexdigest`: `str` of the absolute value of the counter. -/
def LenDigester.hexdigest (d : LenDigester) : String :=
  if d.fsize < 0 then toString (-d.fsize) else toString d.fsize

/-- The `LENGTH` factory registered by `collect_digester_factories`
(the class `LenDigester` itself, called on the declared length). -/
def LenDigester.factory (fsize : Option Nat) : Digester :=
  ⟨LenDigester, LenDigester.init fsize, LenDigester.update, LenDigester.hexdigest⟩

/-! ## The registry (`DigesterFactories`) -/

/-- `DigesterFactories`: an ordered mapping from algorithm name to factory,
carrying the inclusion/exclusion criteria.  `α` is the factory type (it is
generic: the Python dict stores arbitrary values). -/
structure DigesterFactories (α : Type u) : Type u where
  includes : List String
  excludes : List String
  entries : List (String × α)

/-- Ordered-dict item assignment `self[k] = v`: overwrite in place when the
key is present (order preserved), else append. -/
def odSet (k : String) (v : α) (es : List (String × α)) : List (String × α) :=
  if es.any (fun p => p.1 == k) then
    es.map (fun p => if p.1 == k then (k, v) else p)
  else
    es ++ [(k, v)]

/-- Ordered-dict lookup `self[k]` (first match). -/
def lookupAlgo (k : String) : List (String × α) → Option α
  | [] => none
  | e :: es => if e.1 = k then some e.2 else lookupAlgo k es

/-- `DigesterFactories.is_algo_accepted`: included iff `includes` is empty
or some include-fragment occurs in the name; excluded iff `excludes` is
non-empty and some exclude-fragment occurs in the name. -/
def DigesterFactories.is_algo_accepted (d : DigesterFactories α) (algo : String) :
    Bool :=
  let is_included := d.includes.isEmpty || d.includes.any (fun f => strIn f algo)
  let is_excluded := !d.excludes.isEmpty && d.excludes.any (fun f => strIn f algo)
  is_included && !is_excluded

/-- `DigesterFactories.register_if_accepted`: item-assign when accepted
(the `assert algo.isupper()` is treated as a precondition where needed). -/
def DigesterFactories.register_if_accepted (d : DigesterFactories α)
    (algo : String) (factory : α) : DigesterFactories α :=
  if d.is_algo_accepted algo then
    ⟨d.includes, d.excludes, odSet algo factory d.entries⟩
  else
    d

/-! ## The fan-out hashing engine (`produce_hashes`) -/

/-- Result of `produce_hashes`: the accumulated `results` mapping and the
`match_found` flag. -/
structure HashResults where
  results : List (String × String)
  match_found : Bool
deriving DecidableEq

/-- The body of the `for stream, (algo, fact) in batch` loop of
`produce_hashes`: build the digester from the factory, feed it every chunk
of its stream, finalize, then record the result subject to the `match`
test. -/
def phStep (fsize : Option Nat) (stream : List (List Nat)) (mtch : Option String)
    (acc : HashResults) (p : String × (Option Nat → Digester)) : HashResults :=
  let digester := stream.foldl Digester.update (p.2 fsize)
  let result := digester.hexdigest
  if pyTruthy mtch then
    if strIn (mtch.getD "") result then ⟨acc.results ++ [(p.1, result)], true⟩
    else acc
  else ⟨acc.results ++ [(p.1, result)], acc.match_found⟩

/-- `produce_hashes(fsize, bytechunks, digfacts, match)`: tee the chunk
sequence into one replica per registered algorithm (`itertools.tee` over a
pure list replays the same list to each consumer, modelled by
`List.replicate`), zip replicas with the registry items, and run the loop. -/
def produce_hashes (fsize : Option Nat) (bytechunks : List (List Nat))
    (digfacts : DigesterFactories (Option Nat → Digester))
    (mtch : Option String) : HashResults :=
  let streams := List.replicate digfacts.entries.length bytechunks
  let batch := streams.zip digfacts.entries
  batch.foldl (fun acc sp => phStep fsize sp.1 mtch acc sp.2) ⟨[], false⟩

/-- The "No matches found!" signal emitted at the end of `produce_hashes`:
raised iff a truthy `match` was supplied and nothing matched. -/
def no_match_msg (mtch : Option String) (r : HashResults) : Bool :=
  pyTruthy mtch && !r.match_found

/-! ## Spec-side definitions (for refinement comparisons) -/

/-- Spec wording of the acceptance criteria: "(includes is empty OR its
name contains at least one include-fragment) AND NOT (excludes is non-empty
AND its name contains at least one exclude-fragment)". -/
def accept_spec (I X : List String) (n : String) : Bool :=
  (I.isEmpty || I.any (fun f => strIn f n)) &&
  !(!X.isEmpty && X.any (fun f => strIn f n))

/-- Spec wording of running one algorithm alone: "construct an accumulator
via `factory(declaredLength)`, feed it every chunk ... in order, then
finalize it to obtain the digest string". -/
def run_alone (fact : Option Nat → Digester) (fsize : Option Nat)
    (bytechunks : List (List Nat)) : String :=
  (bytechunks.foldl Digester.update (fact fsize)).hexdigest

/-- A digester with a fixed digest string (a concrete test accumulator for
exercising `produce_hashes` on the spec's example digests). -/
def constDigester (s : String) : Digester :=
  ⟨Unit, (), fun u _ => u, fun _ => s⟩

/-! ## Shared lemmas -/

/-- `itertools.tee` over a pure list: the zip of `length l` replicas of a
constant with `l` pairs the same chunk list with every item. -/
lemma zip_replicate_eq_map (c : α) :
    ∀ l : List β, (List.replicate l.length c).zip l = l.map (fun b => (c, b)) := by
  intro l
  induction l with
  | nil => simp
  | cons x xs ih => simp [List.replicate_succ, ih]

/-- `produce_hashes` is the plain left fold of the loop body over the
registry items, every item receiving the same chunk list. -/
lemma produce_hashes_eq_foldl (fsize : Option Nat) (bc : List (List Nat))
    (d : DigesterFactories (Option Nat → Digester)) (m : Option String) :
    produce_hashes fsize bc d m = d.entries.foldl (phStep fsize bc m) ⟨[], false⟩ := by
  simp only [produce_hashes]
  rw [zip_replicate_eq_map, List.foldl_map]

/-- With a falsy `match` value, the loop appends every digest and never
sets `match_found`. -/
lemma foldl_phStep_of_falsy (fsize : Option Nat) (bc : List (List Nat))
    (m : Option String) (hm : pyTruthy m = false) :
    ∀ (es : List (String × (Option Nat → Digester))) (acc : HashResults),
      es.foldl (phStep fsize bc m) acc =
        ⟨acc.results ++ es.map (fun p => (p.1, run_alone p.2 fsize bc)),
         acc.match_found⟩ := by
  intro es
  induction es with
  | nil => intro acc; cases acc; simp
  | cons e es ih =>
      intro acc
      simp only [List.foldl_cons, List.map_cons]
      rw [ih]
      simp [phStep, hm, run_alone]

/-- With a truthy `match` string, the loop keeps exactly the digests
containing the string and records whether any matched. -/
lemma foldl_phStep_of_match (fsize : Option Nat) (bc : List (List Nat))
    (m : String) (hm : (m == "") = false) :
    ∀ (es : List (String × (Option Nat → Digester))) (acc : HashResults),
      es.foldl (phStep fsize bc (some m)) acc =
        ⟨acc.results ++
           (es.map (fun p => (p.1, run_alone p.2 fsize bc))).filter
             (fun q => strIn m q.2),
         acc.match_found ||
           (es.map (fun p => (p.1, run_alone p.2 fsize bc))).any
             (fun q => strIn m q.2)⟩ := by
  intro es
  induction es with
  | nil => intro acc; cases acc; simp
  | cons e es ih =>
      intro acc
      simp only [List.foldl_cons, List.map_cons]
      rw [ih]
      by_cases hmt : strIn m (run_alone e.2 fsize bc) = true
      · simp only [run_alone] at hmt
        simp [phStep, pyTruthy, hm, hmt, run_alone]
      · simp only [Bool.not_eq_true] at hmt
        simp only [run_alone] at hmt
        simp [phStep, pyTruthy, hm, hmt, run_alone]

/-- Folding the generic `Digester.update` over a wrapped state folds the
underlying update function. -/
lemma foldl_digester_mk (S : Type) (u : S → List Nat → S) (hx : S → String) :
    ∀ (chunks : List (List Nat)) (s0 : S),
      chunks.foldl Digester.update ⟨S, s0, u, hx⟩ = ⟨S, chunks.foldl u s0, u, hx⟩ := by
  intro chunks
  induction chunks with
  | nil => intro s0; rfl
  | cons c cs ih => intro s0; simp only [List.foldl_cons, Digester.update, ih]

/-- Feeding a `hashlib.sha1` object chunk by chunk absorbs the
concatenation. -/
lemma foldl_sha1_update :
    ∀ (chunks : List (List Nat)) (bs : List Nat),
      chunks.foldl Sha1.update ⟨bs⟩ = ⟨bs ++ chunks.flatten⟩ := by
  intro chunks
  induction chunks with
  | nil => intro bs; simp
  | cons c cs ih => intro bs; simp [Sha1.update, ih]

/-- Feeding a `GitSlurpDigester` chunk by chunk buffers the
concatenation. -/
lemma foldl_gitslurp_update :
    ∀ (chunks : List (List Nat)) (d : GitSlurpDigester),
      chunks.foldl GitSlurpDigester.update d = ⟨d.otype, d.fbytes ++ chunks.flatten⟩ := by
  intro chunks
  induction chunks with
  | nil => intro d; cases d; simp
  | cons c cs ih => intro d; simp [GitSlurpDigester.update, ih]

/-- A `LenDigester` with a negative counter ignores every update. -/
lemma foldl_len_update_neg :
    ∀ (chunks : List (List Nat)) (d : LenDigester), d.fsize < 0 →
      chunks.foldl LenDigester.update d = d := by
  intro chunks
  induction chunks with
  | nil => intro d _; rfl
  | cons c cs ih =>
      intro d hd
      have hnot : ¬ (0 : Int) ≤ d.fsize := by omega
      simp only [List.foldl_cons, LenDigester.update, if_neg hnot]
      exact ih d hd

/-- A `LenDigester` with a non-negative counter accumulates the total byte
count of the chunks fed. -/
lemma foldl_len_update_nonneg :
    ∀ (chunks : List (List Nat)) (k : Int), 0 ≤ k →
      chunks.foldl LenDigester.update ⟨k⟩ =
        ⟨k + ((chunks.map List.length).sum : Nat)⟩ := by
  intro chunks
  induction chunks with
  | nil => intro k _; simp
  | cons c cs ih =>
      intro k hk
      have hk' : (0 : Int) ≤ k + c.length := by positivity
      simp only [List.foldl_cons, LenDigester.update, if_pos hk]
      rw [ih (k + c.length) hk']
      simp [List.map_cons, List.sum_cons]
      ring

/-- A successful ordered-dict lookup means some entry bears the key. -/
lemma any_key_of_lookupAlgo (k : String) (old : α) :
    ∀ es : List (String × α), lookupAlgo k es = some old →
      es.any (fun p => p.1 == k) = true := by
  intro es
  induction es with
  | nil => intro h; simp [lookupAlgo] at h
  | cons e es ih =>
      intro h
      by_cases he : e.1 = k
      · simp [he]
      · simp only [lookupAlgo, if_neg he] at h
        simp [ih h]

/-- Overwriting a present key in place: the new value is found. -/
lemma lookupAlgo_overwrite (k : String) (v : α) :
    ∀ es : List (String × α), es.any (fun p => p.1 == k) = true →
      lookupAlgo k (es.map (fun p => if p.1 == k then (k, v) else p)) = some v := by
  intro es
  induction es with
  | nil => intro h; simp at h
  | cons e es ih =>
      intro h
      by_cases he : e.1 = k
      · simp [lookupAlgo, he]
      · have he' : (e.1 == k) = false := by simp [he]
        simp only [List.any_cons, he', Bool.false_or] at h
        have hhead : (if (e.1 == k) = true then (k, v) else e) = e := by simp [he']
        simp only [List.map_cons, hhead, lookupAlgo, if_neg he]
        simpa using ih h

/-- Overwriting values in place never changes the key sequence. -/
lemma map_fst_overwrite (k : String) (v : α) :
    ∀ es : List (String × α),
      (es.map (fun p => if p.1 == k then (k, v) else p)).map Prod.fst =
        es.map Prod.fst := by
  intro es
  induction es with
  | nil => rfl
  | cons e es ih =>
      simp only [List.map_cons]
      rw [ih]
      by_cases he : e.1 = k
      · simp [he]
      · have he' : (e.1 == k) = false := by simp [he]
        simp [he']

/-! ## Claim theorems -/

set_option maxRecDepth 10000

/-- C2: for every inclusion/exclusion criteria pair and every upper-case
algorithm name, `is_algo_accepted` returns true iff (includes is empty or
the name contains an include-fragment) and not (excludes is non-empty and
the name contains an exclude-fragment); as a pure function of criteria and
name, re-evaluation gives the same answer by definition. -/
theorem is_algo_accepted_matches_spec {α : Type u} (d : DigesterFactories α)
    (n : String) (h : pyIsUpper n = true) :
    d.is_algo_accepted n = accept_spec d.includes d.excludes n := rfl

/-- Witness for C2 at concrete criteria and name. -/
theorem is_algo_accepted_matches_spec_witness :
    pyIsUpper "SHA-256" = true ∧
      DigesterFactories.is_algo_accepted
          ⟨["SHA"], ["MD"], ([] : List (String × Unit))⟩ "SHA-256" =
        accept_spec ["SHA"] ["MD"] "SHA-256" :=
  ⟨by decide,
   is_algo_accepted_matches_spec ⟨["SHA"], ["MD"], ([] : List (String × Unit))⟩
     "SHA-256" (by decide)⟩

/-- C4 counterexample: `register_if_accepted` on a registry already holding
`"A" ↦ 1` with empty criteria replaces the factory by the newly supplied
one, so the step does not leave the present name's factory unchanged. -/
theorem register_if_accepted_overwrites_cex :
    lookupAlgo "A"
        (DigesterFactories.register_if_accepted
          ⟨[], [], [("A", (1 : Nat))]⟩ "A" 2).entries = some 2 ∧
      some (2 : Nat) ≠ some 1 := by
  constructor
  · decide
  · decide

/-- C4 amended: a registration via `register_if_accepted` never removes a
present name and never reorders the key sequence, but when the name is
accepted it overwrites the present factory with the new one (rather than
leaving it unchanged); when the name is not accepted the registry is left
untouched. -/
theorem register_if_accepted_amended {α : Type u} (d : DigesterFactories α)
    (algo : String) (factory old : α)
    (hpresent : lookupAlgo algo d.entries = some old) :
    (d.is_algo_accepted algo = true →
      lookupAlgo algo (d.register_if_accepted algo factory).entries = some factory ∧
        (d.register_if_accepted algo factory).entries.map Prod.fst =
          d.entries.map Prod.fst) ∧
      (d.is_algo_accepted algo = false →
        d.register_if_accepted algo factory = d) := by
  have hany := any_key_of_lookupAlgo algo old d.entries hpresent
  constructor
  · intro hacc
    have hreg : d.register_if_accepted algo factory =
        ⟨d.includes, d.excludes, odSet algo factory d.entries⟩ := by
      simp [DigesterFactories.register_if_accepted, hacc]
    rw [hreg]
    unfold odSet
    rw [if_pos hany]
    exact ⟨lookupAlgo_overwrite algo factory d.entries hany,
           map_fst_overwrite algo factory d.entries⟩
  · intro hacc
    simp [DigesterFactories.register_if_accepted, hacc]

/-- Witness for the amended C4 at a concrete registry. -/
theorem register_if_accepted_amended_witness :
    lookupAlgo "A" [("A", (1 : Nat))] = some 1 ∧
      ((DigesterFactories.is_algo_accepted ⟨[], [], [("A", (1 : Nat))]⟩ "A" = true →
        lookupAlgo "A"
            (DigesterFactories.register_if_accepted
              ⟨[], [], [("A", (1 : Nat))]⟩ "A" 2).entries = some 2 ∧
          (DigesterFactories.register_if_accepted
              ⟨[], [], [("A", (1 : Nat))]⟩ "A" 2).entries.map Prod.fst =
            ([("A", (1 : Nat))] : List (String × Nat)).map Prod.fst) ∧
        (DigesterFactories.is_algo_accepted ⟨[], [], [("A", (1 : Nat))]⟩ "A" = false →
          DigesterFactories.register_if_accepted
              ⟨[], [], [("A", (1 : Nat))]⟩ "A" 2 =
            ⟨[], [], [("A", (1 : Nat))]⟩)) :=
  ⟨by decide,
   register_if_accepted_amended ⟨[], [], [("A", (1 : Nat))]⟩ "A" 2 1 (by decide)⟩

/-- C3 counterexample: a `LenDigester` constructed with declared length 0
and then fed 3 bytes reports `"3"`, not `"0"`: the negated-length sentinel
conflates declared length 0 with "no declared length", so `update` is not
a no-op there. -/
theorem lenDigester_declared_zero_cex :
    LenDigester.hexdigest
        (LenDigester.update (LenDigester.init (some 0)) [104, 105, 33]) = "3" ∧
      ("3" : String) ≠ "0" := by
  constructor
  · decide
  · decide

/-- C3 amended: for a declared length `n > 0`, `hexdigest` returns the
decimal string of `n` no matter which chunks are fed; with no declared
length the running byte total is reported (so `"0"` for empty input); but a
declared length of 0 is *not* distinguished from "not declared": the
digester then counts bytes exactly as in the undeclared case. -/
theorem lenDigester_amended (n : Nat) (chunks : List (List Nat)) (hn : 0 < n) :
    (chunks.foldl LenDigester.update (LenDigester.init (some n))).hexdigest =
        toString n ∧
      (chunks.foldl LenDigester.update (LenDigester.init none)).hexdigest =
        toString ((chunks.map List.length).sum) ∧
      (chunks.foldl LenDigester.update (LenDigester.init (some 0))).hexdigest =
        toString ((chunks.map List.length).sum) := by
  have hzero : ∀ s0 : LenDigester, s0.fsize = 0 →
      (chunks.foldl LenDigester.update s0).hexdigest =
        toString ((chunks.map List.length).sum) := by
    intro s0 h0
    have : s0 = ⟨(0 : Int)⟩ := by cases s0; simpa using h0
    rw [this, foldl_len_update_nonneg chunks 0 le_rfl]
    have hnn : ¬ ((0 : Int) + ((chunks.map List.length).sum : Nat) < 0) := by
      simp only [zero_add]
      exact Int.not_lt.mpr (Int.natCast_nonneg _)
    simp only [LenDigester.hexdigest, if_neg hnn, zero_add]
    rfl
  refine ⟨?_, ?_, ?_⟩
  · have hneg : (LenDigester.init (some n)).fsize < 0 := by
      simp only [LenDigester.init]
      exact_mod_cast Int.neg_neg_of_pos (by exact_mod_cast hn)
    rw [foldl_len_update_neg chunks _ hneg]
    simp only [LenDigester.init, LenDigester.hexdigest]
    rw [if_pos (by exact_mod_cast Int.neg_neg_of_pos (by exact_mod_cast hn))]
    rw [neg_neg]
    rfl
  · exact hzero (LenDigester.init none) rfl
  · exact hzero (LenDigester.init (some 0)) (by simp [LenDigester.init])
/-- Witness for the amended C3: declared length 42 with two update calls
still reports `"42"`; undeclared and declared-0 digesters fed 5 bytes in
two chunks report `"5"`. -/
theorem lenDigester_amended_witness :
    0 < 42 ∧
      (([[104, 101], [108, 108, 111]] : List (List Nat)).foldl LenDigester.update
          (LenDigester.init (some 42))).hexdigest = toString 42 ∧
      (([[104, 101], [108, 108, 111]] : List (List Nat)).foldl LenDigester.update
          (LenDigester.init none)).hexdigest =
        toString ((([[104, 101], [108, 108, 111]] : List (List Nat)).map
          List.length).sum) ∧
      (([[104, 101], [108, 108, 111]] : List (List Nat)).foldl LenDigester.update
          (LenDigester.init (some 0))).hexdigest =
        toString ((([[104, 101], [108, 108, 111]] : List (List Nat)).map
          List.length).sum) :=
  ⟨by decide, lenDigester_amended 42 [[104, 101], [108, 108, 111]] (by decide)⟩

/-- C9: feeding chunks one `update` at a time gives the same digest as one
`update` with their concatenation, both for a `GitSlurpDigester` of any
object type and for a `LenDigester` with no declared length. -/
theorem chunk_boundary_invariance (otype : String) (chunks : List (List Nat)) :
    (chunks.foldl GitSlurpDigester.update (GitSlurpDigester.init otype)).hexdigest =
        ((GitSlurpDigester.init otype).update chunks.flatten).hexdigest ∧
      (chunks.foldl LenDigester.update (LenDigester.init none)).hexdigest =
        ((LenDigester.init none).update chunks.flatten).hexdigest := by
  constructor
  · rw [foldl_gitslurp_update]
    simp [GitSlurpDigester.init, GitSlurpDigester.update]
  · rw [show LenDigester.init none = ⟨(0 : Int)⟩ from rfl,
        foldl_len_update_nonneg chunks 0 le_rfl]
    simp only [LenDigester.update, LenDigester.hexdigest, if_pos le_rfl]
    rw [List.length_flatten]

/-- C1: with at least two registered algorithms, the results computed by
`produce_hashes` (no match filter) pair every algorithm, in registration
order, with exactly the digest obtained by running that algorithm alone:
building the accumulator via `factory(declaredLength)` and feeding it the
same chunks in order — the tee replication corrupts or reorders nothing. -/
theorem produce_hashes_fanout_correct
    (d : DigesterFactories (Option Nat → Digester)) (fsize : Option Nat)
    (bc : List (List Nat)) (h2 : 2 ≤ d.entries.length) :
    (produce_hashes fsize bc d none).results =
      d.entries.map (fun p => (p.1, run_alone p.2 fsize bc)) := by
  rw [produce_hashes_eq_foldl, foldl_phStep_of_falsy fsize bc none rfl]
  simp

/-- Witness for C1: a registry holding the `LENGTH` and `GIT-BLOB`
factories, fed `b"hello"` in two chunks. -/
theorem produce_hashes_fanout_correct_witness :
    2 ≤ (DigesterFactories.mk [] []
          [("LENGTH", LenDigester.factory), ("GIT-BLOB", git_factory "blob")]).entries.length ∧
      (produce_hashes none [[104, 101], [108, 108, 111]]
          (DigesterFactories.mk [] []
            [("LENGTH", LenDigester.factory), ("GIT-BLOB", git_factory "blob")])
          none).results =
        (DigesterFactories.mk [] []
          [("LENGTH", LenDigester.factory), ("GIT-BLOB", git_factory "blob")]).entries.map
          (fun p => (p.1, run_alone p.2 none [[104, 101], [108, 108, 111]])) :=
  ⟨by decide,
   produce_hashes_fanout_correct
     (DigesterFactories.mk [] []
       [("LENGTH", LenDigester.factory), ("GIT-BLOB", git_factory "blob")])
     none [[104, 101], [108, 108, 111]] (by decide)⟩

/-- C7: with a non-empty match substring, the result mapping holds exactly
the algorithms whose digest contains the substring, the "no match found"
signal fires iff no digest contains it, and with no match argument every
algorithm's digest is included. -/
theorem produce_hashes_match_filter
    (d : DigesterFactories (Option Nat → Digester)) (fsize : Option Nat)
    (bc : List (List Nat)) (m : String) (hm : m ≠ "") :
    (produce_hashes fsize bc d (some m)).results =
        (d.entries.map (fun p => (p.1, run_alone p.2 fsize bc))).filter
          (fun q => strIn m q.2) ∧
      no_match_msg (some m) (produce_hashes fsize bc d (some m)) =
        !((d.entries.map (fun p => (p.1, run_alone p.2 fsize bc))).any
          (fun q => strIn m q.2)) ∧
      (produce_hashes fsize bc d none).results =
        d.entries.map (fun p => (p.1, run_alone p.2 fsize bc)) := by
  have hm' : (m == "") = false := by simpa using hm
  refine ⟨?_, ?_, ?_⟩
  · rw [produce_hashes_eq_foldl, foldl_phStep_of_match fsize bc m hm']
    simp
  · rw [produce_hashes_eq_foldl, foldl_phStep_of_match fsize bc m hm']
    simp [no_match_msg, pyTruthy, hm']
  · rw [produce_hashes_eq_foldl, foldl_phStep_of_falsy fsize bc none rfl]
    simp

/-- Witness for C7: the spec's example — digests `abc123` and `def456`
with match substring `bc1`. -/
theorem produce_hashes_match_filter_witness :
    ("bc1" : String) ≠ "" ∧
      ((produce_hashes none []
          (DigesterFactories.mk [] []
            [("A", fun _ => constDigester "abc123"),
             ("B", fun _ => constDigester "def456")])
          (some "bc1")).results =
        ((DigesterFactories.mk [] []
            [("A", fun _ => constDigester "abc123"),
             ("B", fun _ => constDigester "def456")]).entries.map
          (fun p => (p.1, run_alone p.2 none []))).filter
            (fun q => strIn "bc1" q.2) ∧
      no_match_msg (some "bc1")
          (produce_hashes none []
            (DigesterFactories.mk [] []
              [("A", fun _ => constDigester "abc123"),
               ("B", fun _ => constDigester "def456")])
            (some "bc1")) =
        !(((DigesterFactories.mk [] []
            [("A", fun _ => constDigester "abc123"),
             ("B", fun _ => constDigester "def456")]).entries.map
          (fun p => (p.1, run_alone p.2 none []))).any
            (fun q => strIn "bc1" q.2)) ∧
      (produce_hashes none []
          (DigesterFactories.mk [] []
            [("A", fun _ => constDigester "abc123"),
             ("B", fun _ => constDigester "def456")])
          none).results =
        (DigesterFactories.mk [] []
          [("A", fun _ => constDigester "abc123"),
           ("B", fun _ => constDigester "def456")]).entries.map
          (fun p => (p.1, run_alone p.2 none []))) :=
  ⟨by decide,
   produce_hashes_match_filter
     (DigesterFactories.mk [] []
       [("A", fun _ => constDigester "abc123"),
        ("B", fun _ => constDigester "def456")])
     none [] "bc1" (by decide)⟩

/-- C10: passing the empty string as the match argument behaves exactly
like passing no match argument (Python falsiness): every digest is
included and the "no match found" message can never be emitted. -/
theorem produce_hashes_empty_match
    (d : DigesterFactories (Option Nat → Digester)) (fsize : Option Nat)
    (bc : List (List Nat)) :
    produce_hashes fsize bc d (some "") = produce_hashes fsize bc d none ∧
      no_match_msg (some "") (produce_hashes fsize bc d (some "")) = false := by
  constructor
  · rw [produce_hashes_eq_foldl, produce_hashes_eq_foldl,
        foldl_phStep_of_falsy fsize bc (some "") rfl,
        foldl_phStep_of_falsy fsize bc none rfl]
  · simp [no_match_msg, pyTruthy]

/-- C8: an empty registry yields the empty result mapping with no match
flag, for every declared length, match argument and byte source; the
outcome is independent of the byte source, which the loop never touches. -/
theorem produce_hashes_empty_registry
    (d : DigesterFactories (Option Nat → Digester)) (h : d.entries = [])
    (fsize : Option Nat) (bc bc' : List (List Nat)) (mtch : Option String) :
    produce_hashes fsize bc d mtch = ⟨[], false⟩ ∧
      produce_hashes fsize bc d mtch = produce_hashes fsize bc' d mtch := by
  have h1 : ∀ b : List (List Nat), produce_hashes fsize b d mtch = ⟨[], false⟩ := by
    intro b
    rw [produce_hashes_eq_foldl, h]
    rfl
  exact ⟨h1 bc, (h1 bc).trans (h1 bc').symm⟩

/-- Witness for C8 at a concrete empty registry and two byte sources. -/
theorem produce_hashes_empty_registry_witness :
    (DigesterFactories.mk [] []
        ([] : List (String × (Option Nat → Digester)))).entries = [] ∧
      (produce_hashes (some 2) [[1, 2]]
          (DigesterFactories.mk [] [] []) (some "x") = ⟨[], false⟩ ∧
        produce_hashes (some 2) [[1, 2]]
            (DigesterFactories.mk [] [] []) (some "x") =
          produce_hashes (some 2) [[3]]
            (DigesterFactories.mk [] [] []) (some "x")) :=
  ⟨rfl,
   produce_hashes_empty_registry (DigesterFactories.mk [] [] []) rfl
     (some 2) [[1, 2]] [[3]] (some "x")⟩

/-- C5: for any object type and any chunk sequence whose total byte count
equals the declared length, the slurping variant (`fsize = None`) and the
known-length variant of `git_factory` produce the same hex digest. -/
theorem git_slurp_known_equiv (otype : String) (fsize : Nat)
    (chunks : List (List Nat))
    (hty : otype ∈ (["blob", "commit", "tag"] : List String))
    (hlen : (chunks.map List.length).sum = fsize) :
    (chunks.foldl Digester.update (git_factory otype none)).hexdigest =
      (chunks.foldl Digester.update (git_factory otype (some fsize))).hexdigest := by
  have h1 : git_factory otype none =
      ⟨GitSlurpDigester, GitSlurpDigester.init otype,
       GitSlurpDigester.update, GitSlurpDigester.hexdigest⟩ := rfl
  have h2 : git_factory otype (some fsize) =
      ⟨Sha1, sha1 (git_header otype fsize), Sha1.update, Sha1.hexdigest⟩ := rfl
  rw [h1, h2, foldl_digester_mk, foldl_digester_mk]
  show GitSlurpDigester.hexdigest _ = Sha1.hexdigest _
  rw [foldl_gitslurp_update,
      show sha1 (git_header otype fsize) = (⟨git_header otype fsize⟩ : Sha1) from rfl,
      foldl_sha1_update]
  simp only [GitSlurpDigester.hexdigest, Sha1.hexdigest, GitSlurpDigester.init,
             List.nil_append]
  rw [List.length_flatten, hlen]

/-- Witness for C5: `b"hello"` split into two chunks, declared length 5,
object type `blob`. -/
theorem git_slurp_known_equiv_witness :
    (("blob" : String) ∈ (["blob", "commit", "tag"] : List String)) ∧
      (([[104, 101], [108, 108, 111]] : List (List Nat)).map List.length).sum = 5 ∧
      (([[104, 101], [108, 108, 111]] : List (List Nat)).foldl Digester.update
          (git_factory "blob" none)).hexdigest =
        (([[104, 101], [108, 108, 111]] : List (List Nat)).foldl Digester.update
          (git_factory "blob" (some 5))).hexdigest :=
  ⟨by decide, by decide,
   git_slurp_known_equiv "blob" 5 [[104, 101], [108, 108, 111]]
     (by decide) (by decide)⟩

/-- C6: the known-length `git_factory` digest of type `blob`, declared
length 5 and content `b"hello"` is SHA-1 of `b"blob 5\0hello"` (the header
`"<type> <decimal-length>"` plus one NUL byte, then the content), with hex
digest `b6fc4c620b67d95f953a5c1c1230aaab5db5a1b0`. -/
theorem git_blob_hello_vector :
    (([[104, 101, 108, 108, 111]] : List (List Nat)).foldl Digester.update
        (git_factory "blob" (some 5))).hexdigest =
      sha1hex [98, 108, 111, 98, 32, 53, 0, 104, 101, 108, 108, 111] ∧
      sha1hex [98, 108, 111, 98, 32, 53, 0, 104, 101, 108, 108, 111] =
        "b6fc4c620b67d95f953a5c1c1230aaab5db5a1b0" := by
  constructor
  · rfl
  · decide
